import Mathlib

/-
Shallow embedding of `src/event_visualizer.py` (ATAR decay exploration).

Conventions of the embedding:
* Python `int` is `ℤ`; Python `float` is modelled exactly as `ℚ`
  (the quantities manipulated here are only compared and added).
* Python sequences are `List`s, consumed in the raw stream order.
* Python exceptions (`IndexError` from sequence subscripts, `TypeError`
  from subscripting `None`) are modelled with `Except PyError`.
* Python `a % b` for `b > 0` is `Int.emod`, and `int(np.floor(a / b))`
  for `b > 0` is `Int.fdiv` (floor division).
* Python list subscripting with a possibly negative index resolves
  negative indices from the end of the list (`l[-1]` is the last entry)
  and raises `IndexError` when the resolved index is out of bounds.
-/

namespace ATAR

/-- Errors raised by the Python runtime in the modelled fragments. -/
inductive PyError where
  | indexError
  | typeError
deriving DecidableEq, Repr

/-- Strip orientation of a detection plane (`"x"` or `"y"`). -/
inductive Axis where
  | x
  | y
deriving DecidableEq, Repr

instance instDecEqExcept {ε α : Type} [DecidableEq ε] [DecidableEq α] :
    DecidableEq (Except ε α) := fun x y =>
  match x, y with
  | Except.error a, Except.error b =>
      if h : a = b then isTrue (by rw [h])
      else isFalse (fun hxy => h (Except.error.inj hxy))
  | Except.error _, Except.ok _ => isFalse (fun hxy => Except.noConfusion hxy)
  | Except.ok _, Except.error _ => isFalse (fun hxy => Except.noConfusion hxy)
  | Except.ok a, Except.ok b =>
      if h : a = b then isTrue (by rw [h])
      else isFalse (fun hxy => h (Except.ok.inj hxy))

/-- Python list index resolution for a list of length `n`: a negative
index counts from the end; the result is `none` (`IndexError`) when the
resolved index is out of bounds. -/
def pyIdx (n : ℕ) (i : ℤ) : Option ℕ :=
  let j : ℤ := if i < 0 then i + n else i
  if 0 ≤ j ∧ j < n then some j.toNat else none

/-- Python `l[i] += v` on a list of rationals: resolve the (possibly
negative) index, then bump the entry; `none` models the `IndexError`. -/
def pyListAddAt (l : List ℚ) (i : ℤ) (v : ℚ) : Option (List ℚ) :=
  match pyIdx l.length i with
  | none => none
  | some j => some (l.set j (l.getD j 0 + v))

/-! ### Geometry decoder

From `process_event` (src/event_visualizer.py lines 103, 105, 114):
`plane = int(np.floor((pixel_hits[i] - 1 - 100_000) / npixels_per_plane))`,
`cur_val = (pixel_hits[i] - 1) % npixels_per_plane`, and even planes give
x-values while odd planes give y-values, with `npixels_per_plane = 100`. -/

/-- `plane = int(np.floor((hit_id - 1 - 100_000) / 100))` (line 103). -/
def decodePlane (hitId : ℤ) : ℤ :=
  Int.fdiv (hitId - 1 - 100000) 100

/-- `cur_val = (hit_id - 1) % 100` (line 105). -/
def decodeCoord (hitId : ℤ) : ℤ :=
  (hitId - 1) % 100

/-- `plane % 2 == 0` selects the x branch, otherwise y (lines 114-119). -/
def decodeAxis (hitId : ℤ) : Axis :=
  if decodePlane hitId % 2 = 0 then Axis.x else Axis.y

/-! ### Event reconstruction (`process_event`) -/

/-- Raw per-event ATAR branches read by `process_event`
(`pixel_hits`, `pixel_time`, `pixel_edep`, `pixel_pdg`). -/
structure RawAtar where
  pixel_hits : List ℤ
  pixel_time : List ℚ
  pixel_edep : List ℚ
  pixel_pdg : List ℤ
deriving DecidableEq, Repr

/-- Raw per-event calorimeter branches (`crystal`, `edep`). -/
structure RawCalo where
  crystal : List ℤ
  edep : List ℚ
deriving DecidableEq, Repr

/-- Mutable state of the hit loop in `process_event`: the `cur_time`
cursor plus the series built up on the `Event` container. -/
structure LoopState where
  cur_time : ℚ
  t_data : List ℚ
  x_data : List (Option ℤ)
  y_data : List (Option ℤ)
  z_data : List ℤ
  E_data : List ℚ
  gap_times : List ℚ
  E_per_plane : List ℚ
deriving DecidableEq, Repr

/-- One iteration of the hit loop (src/event_visualizer.py lines 100-129):
decode plane and coordinate, append to the series (filling the unused one
of `x_data`/`y_data` with the no-value marker `none` for `np.nan`), record
a gap time when the delta exceeds 1.0 ns, and accumulate the deposited
energy into `E_per_plane[plane]` — a Python list subscript, so a negative
`plane` counts from the end and an unresolvable one raises `IndexError`. -/
def hitStep (s : LoopState) (hit : ℤ) (time edep : ℚ) : Except PyError LoopState :=
  let plane := decodePlane hit
  let cur_val := decodeCoord hit
  let last_time := s.cur_time
  match pyListAddAt s.E_per_plane plane edep with
  | none => Except.error PyError.indexError
  | some epp =>
      Except.ok
        { cur_time := time
          t_data := s.t_data ++ [time]
          x_data := s.x_data ++ [if plane % 2 = 0 then some cur_val else none]
          y_data := s.y_data ++ [if plane % 2 = 0 then none else some cur_val]
          z_data := s.z_data ++ [plane]
          E_data := s.E_data ++ [edep]
          gap_times :=
            if time - last_time > 1 then s.gap_times ++ [time - last_time]
            else s.gap_times
          E_per_plane := epp }

/-- The loop `for i in range(pixel_hits.size())`: each iteration reads
`pixel_time[i]` and `pixel_edep[i]`, so exhausting either of those arrays
before the hits array raises `IndexError`; entries of `pixel_time` or
`pixel_edep` beyond the hit count are never read. -/
def processLoop : List ℤ → List ℚ → List ℚ → LoopState → Except PyError LoopState
  | [], _, _, s => Except.ok s
  | _ :: _, [], _, _ => Except.error PyError.indexError
  | _ :: _, _ :: _, [], _ => Except.error PyError.indexError
  | hit :: hits, t :: ts, e :: es, s =>
      match hitStep s hit t e with
      | Except.error err => Except.error err
      | Except.ok s' => processLoop hits ts es s'

/-- Initial loop state. `cur_time = 0` is line 97 of the source.
Modelled from the spec: the `Event` container (class `Event`, imported
from `Event.py`, which is not under src/) starts with empty series and
`E_per_plane` a fixed-size array of 50 zeros, one slot per valid plane
index 0..49. -/
def initState : LoopState :=
  { cur_time := 0
    t_data := []
    x_data := []
    y_data := []
    z_data := []
    E_data := []
    gap_times := []
    E_per_plane := List.replicate 50 0 }

/-- Python `max` on a list, defined on nonempty lists (the only use site
is `max(event.E_per_plane)` whose argument always has 50 entries). -/
def pyMax : List ℚ → ℚ
  | [] => 0
  | v :: vs => vs.foldl max v

/-- The Event Record produced by one reconstruction. -/
structure Event where
  t_data : List ℚ
  x_data : List (Option ℤ)
  y_data : List (Option ℤ)
  z_data : List ℤ
  E_data : List ℚ
  E_per_plane : List ℚ
  max_E : ℚ
  gap_times : List ℚ
  pixel_pdgs : List ℤ
  crystal_ids : List ℤ
  calo_edep : List ℚ
  r_theta_phis : List (Option (ℚ × ℚ × ℚ))
deriving DecidableEq, Repr

/-- `process_event` (src/event_visualizer.py lines 82-152): run the hit
loop, copy `pixel_pdg` verbatim, take `max_E = max(E_per_plane)`, copy the
calorimeter branches, and resolve each crystal ID through the geometry
lookup with `dict.get` (an absent ID yields `None`, modelled as `none`).
The lookup `global_crys_dict` is the external geometry table. -/
def process_event (atar : RawAtar) (calo : RawCalo)
    (global_crys_dict : ℤ → Option (ℚ × ℚ × ℚ)) : Except PyError Event :=
  match processLoop atar.pixel_hits atar.pixel_time atar.pixel_edep initState with
  | Except.error err => Except.error err
  | Except.ok s =>
      Except.ok
        { t_data := s.t_data
          x_data := s.x_data
          y_data := s.y_data
          z_data := s.z_data
          E_data := s.E_data
          E_per_plane := s.E_per_plane
          max_E := pyMax s.E_per_plane
          gap_times := s.gap_times
          pixel_pdgs := atar.pixel_pdg
          crystal_ids := calo.crystal
          calo_edep := calo.edep
          r_theta_phis := calo.crystal.map global_crys_dict }

/-! ### Calorimeter panel of `plot_event` (lines 220-225) -/

/-- `[coords[1] for coords in event.r_theta_phis]` (line 222): subscripting
an absent (`None`) entry raises `TypeError`. -/
def extractThetas : List (Option (ℚ × ℚ × ℚ)) → Except PyError (List ℚ)
  | [] => Except.ok []
  | none :: _ => Except.error PyError.typeError
  | some c :: rest =>
      match extractThetas rest with
      | Except.error err => Except.error err
      | Except.ok qs => Except.ok (c.2.1 :: qs)

/-- `[coords[2] for coords in event.r_theta_phis]` (line 223). -/
def extractPhis : List (Option (ℚ × ℚ × ℚ)) → Except PyError (List ℚ)
  | [] => Except.ok []
  | none :: _ => Except.error PyError.typeError
  | some c :: rest =>
      match extractPhis rest with
      | Except.error err => Except.error err
      | Except.ok qs => Except.ok (c.2.2 :: qs)

/-- The coordinate extraction guarding the calorimeter panel (lines
220-223): only performed when `len(event.crystal_ids) > 1`; returns the
theta and phi lists handed to the scatter call, `none` when the panel is
suppressed. -/
def caloPanelCoords (e : Event) : Except PyError (Option (List ℚ × List ℚ)) :=
  if 1 < e.crystal_ids.length then
    match extractThetas e.r_theta_phis with
    | Except.error err => Except.error err
    | Except.ok thetas =>
        match extractPhis e.r_theta_phis with
        | Except.error err => Except.error err
        | Except.ok phis => Except.ok (some (thetas, phis))
  else Except.ok none

/-! ### Color legend of `plot_with_color_legend` (lines 246-292) -/

/-- `particle_IDs = [211, -11, 11, -13, 13]` (line 250). -/
def particle_IDs : List ℤ := [211, -11, 11, -13, 13]

/-- `other_colors = ["k", "gray", "cyan", "indigo", "teal", "lime"]`
(line 259). -/
def other_colors : List String := ["k", "gray", "cyan", "indigo", "teal", "lime"]

/-- The effect of one pass of the inner loop (lines 263-270) on the
`other_IDs` accumulator, while the outer loop is at the known particle ID
`curID`: a pdg equal to `curID` goes to the known-particle branch; a pdg
outside `particle_IDs` is recorded in `other_IDs` on first sight. -/
def legendPass (curID : ℤ) (acc : List ℤ) (pdgs : List ℤ) : List ℤ :=
  pdgs.foldl
    (fun a p =>
      if p = curID then a
      else if p ∉ particle_IDs then (if p ∈ a then a else a ++ [p]) else a)
    acc

/-- `other_IDs` as accumulated by the full outer loop over the five known
particle IDs (lines 262-270), starting from the empty list (line 258). -/
def other_IDs (pdgs : List ℤ) : List ℤ :=
  particle_IDs.foldl (fun acc pid => legendPass pid acc pdgs) []

/-- Pairing each collected ID with `other_colors[i]` positionally; running
past the palette raises `IndexError` (line 292 subscripts `other_colors`
by the loop index). -/
def colorAssign : List ℤ → List String → Except PyError (List (ℤ × String))
  | [], _ => Except.ok []
  | _ :: _, [] => Except.error PyError.indexError
  | pid :: pids, c :: cs =>
      match colorAssign pids cs with
      | Except.error err => Except.error err
      | Except.ok l => Except.ok ((pid, c) :: l)

/-- The scatter calls of the second loop (lines 280-292): one call per
entry of `other_IDs`, labelled by the raw code, colored by
`other_colors[i]`. -/
def otherScatterCalls (pdgs : List ℤ) : Except PyError (List (ℤ × String)) :=
  colorAssign (other_IDs pdgs) other_colors

/-! ### Event selector (`select_events`, lines 299-317) -/

/-- One row of the tree as seen by the selection cut: the decay
classification flag `pion_dar` and the `pixel_edep` array. -/
structure TreeRow where
  pion_dar : Bool
  pixel_edep : List ℚ
deriving DecidableEq, Repr

/-- The cut chosen from `is_event_DAR` (lines 301-306):
`0` → `"!pion_dar && Sum$(pixel_edep) > 0"`,
`1` → `"pion_dar && Sum$(pixel_edep) > 0"`, else `"Sum$(pixel_edep) > 0"`,
evaluated on one row. -/
def cutOf (is_event_DAR : ℤ) (row : TreeRow) : Bool :=
  if is_event_DAR = 0 then !row.pion_dar && decide (0 < row.pixel_edep.sum)
  else if is_event_DAR = 1 then row.pion_dar && decide (0 < row.pixel_edep.sum)
  else decide (0 < row.pixel_edep.sum)

/-- Modelled from the spec: `tree.Draw("Entry$", cut, "goff")` followed by
reading `tree.GetV1()` (lines 307-312) — ROOT is an external collaborator;
per the spec the selector "applies a boolean predicate over each candidate
event row and returns indices in the table's natural row order". -/
def drawEntries (tree : List TreeRow) (cut : TreeRow → Bool) : List ℕ :=
  (List.range tree.length).filter fun i => cut (tree.getD i ⟨false, []⟩)

/-- `select_events` (lines 299-317): gather the indices passing the cut in
row order, then slice `events[0:num_events]`. -/
def select_events (tree : List TreeRow) (is_event_DAR : ℤ) (num_events : ℕ) :
    List ℕ :=
  (drawEntries tree (cutOf is_event_DAR)).take num_events

/-! ### Spec-side definitions (used only to state the claims) -/

/-- Spec formula for the gap-time series: starting from a previous-time
cursor (0 for the first hit), append `t - prev` exactly when it exceeds
1.0 ns. -/
def gapTimesSpec : ℚ → List ℚ → List ℚ
  | _, [] => []
  | prev, t :: ts =>
      if t - prev > 1 then (t - prev) :: gapTimesSpec t ts else gapTimesSpec t ts

/-- Append an element unless it is already present (keeps the first
occurrence). -/
def addFirst (acc : List ℤ) (p : ℤ) : List ℤ :=
  if p ∈ acc then acc else acc ++ [p]

/-- The distinct elements of a list, in order of first appearance. -/
def firstOccurrences (l : List ℤ) : List ℤ := l.foldl addFirst []

/-- The pdg codes outside the five known particle IDs, in stream order. -/
def unknownCodes (pdgs : List ℤ) : List ℤ :=
  pdgs.filter fun p => p ∉ particle_IDs

/-- The selection criterion named by the spec. -/
inductive Criterion where
  | dif
  | dar
  | all
deriving DecidableEq, Repr

/-- The `is_event_DAR` integer convention: 0 = decays in flight,
1 = decays at rest, anything else = all data. -/
def criterionOfCode (c : ℤ) : Criterion :=
  if c = 0 then Criterion.dif else if c = 1 then Criterion.dar else Criterion.all

/-- Spec wording of the selector predicate: a decay-classification flag
check plus a has-any-nonzero-energy-deposit check. -/
def criterionPred : Criterion → TreeRow → Bool
  | Criterion.dif, row => !row.pion_dar && decide (0 < row.pixel_edep.sum)
  | Criterion.dar, row => row.pion_dar && decide (0 < row.pixel_edep.sum)
  | Criterion.all, row => decide (0 < row.pixel_edep.sum)

/-- Spec wording: the indices of the rows satisfying the criterion, in the
table's natural row order. -/
def specMatching (tree : List TreeRow) (c : Criterion) : List ℕ :=
  (List.range tree.length).filter fun i => criterionPred c (tree.getD i ⟨false, []⟩)

/-- The per-index exclusivity of `x_data`/`y_data`: at every index exactly
one of the two holds a real value. -/
def XYOk (xs ys : List (Option ℤ)) : Prop :=
  ∀ i, i < xs.length →
    ((xs.getD i none).isSome = true ∧ ys.getD i none = none) ∨
    ((ys.getD i none).isSome = true ∧ xs.getD i none = none)

/-! ### Concrete inputs used by counterexamples and witnesses -/

/-- An empty geometry lookup. -/
def lookup0 : ℤ → Option (ℚ × ℚ × ℚ) := fun _ => none

/-- An empty calorimeter read-out. -/
def calo0 : RawCalo := ⟨[], []⟩

/-- One hit with ID 100000, whose decoded plane is -1. -/
def atarWrap : RawAtar := ⟨[100000], [1], [2], [211]⟩

/-- One hit but an empty pdg array (mismatched parallel arrays). -/
def atarNoPdg : RawAtar := ⟨[100001], [1], [1], []⟩

/-- Two hits but a single timestamp (mismatched parallel arrays). -/
def atarShortTime : RawAtar := ⟨[100001, 100002], [1], [1, 1], [211, 211]⟩

/-- One hit but two pdg entries (mismatched parallel arrays). -/
def atarTwoPdg : RawAtar := ⟨[100001], [1], [1], [211, 211]⟩

/-- Four valid hits carrying the spec's gap-time example timestamps. -/
def atarGap : RawAtar :=
  ⟨[100001, 100002, 100003, 100004], [0.2, 0.5, 2.0, 2.1], [1, 1, 1, 1],
    [211, 211, 211, 211]⟩

/-- Calorimeter read-out with two crystals. -/
def caloTwo : RawCalo := ⟨[1, 2], [5, 6]⟩

/-- A geometry lookup that only resolves crystal 1. -/
def lookupOne : ℤ → Option (ℚ × ℚ × ℚ) := fun i =>
  if i = 1 then some (1, 2, 3) else none

/-- A five-row table whose rows 0, 2, 4 are decays at rest with nonzero
deposits. -/
def tableDAR : List TreeRow :=
  [⟨true, [1]⟩, ⟨false, [1]⟩, ⟨true, [1]⟩, ⟨false, [1]⟩, ⟨true, [1]⟩]

/-- One hit with ID 90000, whose decoded plane is -101. -/
def atarBadPlane : RawAtar := ⟨[90000], [1], [1], [211]⟩

/-- The Event Record that `process_event` produces from `atarGap` with an
empty calorimeter read-out. -/
def evGap : Event :=
  { t_data := [0.2, 0.5, 2, 2.1]
    x_data := [some 0, some 1, some 2, some 3]
    y_data := [none, none, none, none]
    z_data := [0, 0, 0, 0]
    E_data := [1, 1, 1, 1]
    E_per_plane := 4 :: List.replicate 49 0
    max_E := 4
    gap_times := [1.5]
    pixel_pdgs := [211, 211, 211, 211]
    crystal_ids := []
    calo_edep := []
    r_theta_phis := [] }

/-! ### Helper lemmas -/

theorem exists_ok {α β : Type} (x : Except α β) (h : x.isOk = true) :
    ∃ y, x = Except.ok y := by
  cases x with
  | error err => simp [Except.isOk, Except.toBool] at h
  | ok y => exact ⟨y, rfl⟩

theorem pyIdx_eq_none_iff (n : ℕ) (i : ℤ) :
    pyIdx n i = none ↔ i < -(n : ℤ) ∨ (n : ℤ) ≤ i := by
  by_cases hneg : i < 0 <;> simp [pyIdx, hneg] <;> omega

theorem pyIdx_isSome_iff (n : ℕ) (i : ℤ) :
    (pyIdx n i).isSome = true ↔ -(n : ℤ) ≤ i ∧ i < (n : ℤ) := by
  rw [Option.isSome_iff_ne_none, ne_eq, pyIdx_eq_none_iff]
  omega

theorem sum_set_getD_add (l : List ℚ) (j : ℕ) (v : ℚ) (hj : j < l.length) :
    (l.set j (l.getD j 0 + v)).sum = l.sum + v := by
  induction l generalizing j with
  | nil => simp at hj
  | cons a t ih =>
      cases j with
      | zero => simp [List.set]; ring
      | succ j =>
          simp only [List.set, List.getD_cons_succ, List.sum_cons]
          rw [ih j (by simpa using hj)]
          ring

theorem pyListAddAt_eq_none_iff (l : List ℚ) (i : ℤ) (v : ℚ) :
    pyListAddAt l i v = none ↔ i < -(l.length : ℤ) ∨ (l.length : ℤ) ≤ i := by
  rw [← pyIdx_eq_none_iff l.length i]
  unfold pyListAddAt
  cases pyIdx l.length i <;> simp

theorem pyIdx_some_lt (n : ℕ) (i : ℤ) (j : ℕ) (h : pyIdx n i = some j) :
    j < n := by
  by_cases hneg : i < 0 <;> simp [pyIdx, hneg] at h <;> omega

theorem pyListAddAt_some (l : List ℚ) (i : ℤ) (v : ℚ) (l' : List ℚ)
    (h : pyListAddAt l i v = some l') :
    l'.length = l.length ∧ l'.sum = l.sum + v := by
  unfold pyListAddAt at h
  cases hidx : pyIdx l.length i with
  | none => rw [hidx] at h; exact Option.noConfusion h
  | some j =>
      rw [hidx] at h
      have hj : j < l.length := pyIdx_some_lt _ _ _ hidx
      have hl : l' = l.set j (l.getD j 0 + v) := (Option.some.inj h).symm
      subst hl
      exact ⟨by simp, sum_set_getD_add l j v hj⟩

theorem hitStep_ok (s : LoopState) (hit : ℤ) (time edep : ℚ) (s' : LoopState)
    (h : hitStep s hit time edep = Except.ok s') :
    ∃ epp, pyListAddAt s.E_per_plane (decodePlane hit) edep = some epp ∧
      s' = { cur_time := time
             t_data := s.t_data ++ [time]
             x_data := s.x_data ++
               [if decodePlane hit % 2 = 0 then some (decodeCoord hit) else none]
             y_data := s.y_data ++
               [if decodePlane hit % 2 = 0 then none else some (decodeCoord hit)]
             z_data := s.z_data ++ [decodePlane hit]
             E_data := s.E_data ++ [edep]
             gap_times :=
               if time - s.cur_time > 1 then s.gap_times ++ [time - s.cur_time]
               else s.gap_times
             E_per_plane := epp } := by
  simp only [hitStep] at h
  cases hadd : pyListAddAt s.E_per_plane (decodePlane hit) edep with
  | none => rw [hadd] at h; exact Except.noConfusion h
  | some epp =>
      rw [hadd] at h
      exact ⟨epp, rfl, (Except.ok.inj h).symm⟩

theorem hitStep_error (s : LoopState) (hit : ℤ) (time edep : ℚ) (err : PyError)
    (h : hitStep s hit time edep = Except.error err) :
    pyListAddAt s.E_per_plane (decodePlane hit) edep = none := by
  simp only [hitStep] at h
  cases hadd : pyListAddAt s.E_per_plane (decodePlane hit) edep with
  | none => rfl
  | some epp => rw [hadd] at h; exact Except.noConfusion h

theorem processLoop_ok (hits : List ℤ) (ts es : List ℚ) (s s' : LoopState)
    (h : processLoop hits ts es s = Except.ok s') :
    s'.t_data.length = s.t_data.length + hits.length ∧
    s'.x_data.length = s.x_data.length + hits.length ∧
    s'.y_data.length = s.y_data.length + hits.length ∧
    s'.z_data.length = s.z_data.length + hits.length ∧
    s'.E_data.length = s.E_data.length + hits.length ∧
    s'.E_per_plane.length = s.E_per_plane.length ∧
    s'.E_per_plane.sum + s.E_data.sum = s.E_per_plane.sum + s'.E_data.sum := by
  induction hits generalizing ts es s with
  | nil =>
      simp only [processLoop] at h
      cases h
      simp
  | cons hit hits ih =>
      cases ts with
      | nil => exact absurd h (by simp [processLoop])
      | cons t ts =>
          cases es with
          | nil => exact absurd h (by simp [processLoop])
          | cons e es =>
              simp only [processLoop] at h
              cases hstep : hitStep s hit t e with
              | error err => rw [hstep] at h; exact Except.noConfusion h
              | ok s₁ =>
                  rw [hstep] at h
                  obtain ⟨epp, hadd, hs₁⟩ := hitStep_ok _ _ _ _ _ hstep
                  obtain ⟨hlen, hsum⟩ := pyListAddAt_some _ _ _ _ hadd
                  have hrec := ih ts es s₁ h
                  subst hs₁
                  simp only [List.length_append, List.length_singleton,
                    List.sum_append, List.sum_singleton, List.length_cons,
                    List.length_nil] at hrec ⊢
                  refine ⟨by omega, by omega, by omega, by omega, by omega,
                    by omega, by linarith [hrec.2.2.2.2.2.2, hsum]⟩

theorem processLoop_gap (hits : List ℤ) (ts es : List ℚ) (s s' : LoopState)
    (hlen : ts.length = hits.length)
    (h : processLoop hits ts es s = Except.ok s') :
    s'.gap_times = s.gap_times ++ gapTimesSpec s.cur_time ts := by
  induction hits generalizing ts es s with
  | nil =>
      cases ts with
      | nil =>
          simp only [processLoop] at h
          cases h
          simp [gapTimesSpec]
      | cons t ts => simp at hlen
  | cons hit hits ih =>
      cases ts with
      | nil => simp at hlen
      | cons t ts =>
          cases es with
          | nil => exact absurd h (by simp [processLoop])
          | cons e es =>
              simp only [processLoop] at h
              cases hstep : hitStep s hit t e with
              | error err => rw [hstep] at h; exact Except.noConfusion h
              | ok s₁ =>
                  rw [hstep] at h
                  obtain ⟨epp, hadd, hs₁⟩ := hitStep_ok _ _ _ _ _ hstep
                  have hrec := ih ts es s₁ (by simpa using hlen) h
                  subst hs₁
                  simp only [gapTimesSpec] at hrec ⊢
                  rw [hrec]
                  by_cases hgt : t - s.cur_time > 1 <;>
                    simp [hgt, List.append_assoc]

theorem processLoop_isOk_iff (hits : List ℤ) (ts es : List ℚ) (s : LoopState)
    (hts : ts.length = hits.length) (hes : es.length = hits.length)
    (hepp : s.E_per_plane.length = 50) :
    (processLoop hits ts es s).isOk = true ↔
      ∀ hit ∈ hits, -50 ≤ decodePlane hit ∧ decodePlane hit < 50 := by
  induction hits generalizing ts es s with
  | nil =>
      cases ts with
      | nil => simp [processLoop, Except.isOk, Except.toBool]
      | cons t ts => simp at hts
  | cons hit hits ih =>
      cases ts with
      | nil => simp at hts
      | cons t ts =>
          cases es with
          | nil => simp at hes
          | cons e es =>
              simp only [processLoop]
              cases hstep : hitStep s hit t e with
              | error err =>
                  have hnone := hitStep_error _ _ _ _ _ hstep
                  rw [pyListAddAt_eq_none_iff, hepp] at hnone
                  simp only [Except.isOk, Except.toBool]
                  constructor
                  · intro hfalse; exact absurd hfalse (by simp)
                  · intro hall
                    have := hall hit (List.mem_cons_self hit hits)
                    omega
              | ok s₁ =>
                  obtain ⟨epp, hadd, hs₁⟩ := hitStep_ok _ _ _ _ _ hstep
                  have hgood : -50 ≤ decodePlane hit ∧ decodePlane hit < 50 := by
                    have : ¬(pyListAddAt s.E_per_plane (decodePlane hit) e = none) := by
                      rw [hadd]; simp
                    rw [pyListAddAt_eq_none_iff, hepp] at this
                    omega
                  have hepp₁ : s₁.E_per_plane.length = 50 := by
                    obtain ⟨hl, _⟩ := pyListAddAt_some _ _ _ _ hadd
                    rw [hs₁]
                    simpa [hl] using hepp
                  have hrec := ih ts es s₁ (by simpa using hts) (by simpa using hes)
                    hepp₁
                  rw [List.forall_mem_cons]
                  simp [hrec, hgood]

theorem processLoop_short (hits : List ℤ) (ts es : List ℚ) (s : LoopState)
    (h : ts.length < hits.length ∨ es.length < hits.length) :
    (processLoop hits ts es s).isOk = false := by
  induction hits generalizing ts es s with
  | nil => simp at h
  | cons hit hits ih =>
      cases ts with
      | nil => simp [processLoop, Except.isOk, Except.toBool]
      | cons t ts =>
          cases es with
          | nil => simp [processLoop, Except.isOk, Except.toBool]
          | cons e es =>
              simp only [processLoop]
              cases hstep : hitStep s hit t e with
              | error err => simp [Except.isOk, Except.toBool]
              | ok s₁ =>
                  refine ih ts es s₁ ?_
                  simp only [List.length_cons] at h
                  omega

theorem XYOk_append (xs ys : List (Option ℤ)) (hlen : ys.length = xs.length)
    (h : XYOk xs ys) (a b : Option ℤ)
    (hab : (a.isSome = true ∧ b = none) ∨ (b.isSome = true ∧ a = none)) :
    XYOk (xs ++ [a]) (ys ++ [b]) := by
  intro i hi
  simp only [List.length_append, List.length_singleton] at hi
  rcases Nat.lt_or_ge i xs.length with hlt | hge
  · rw [List.getD_append _ _ _ _ hlt, List.getD_append _ _ _ _ (by omega)]
    exact h i hlt
  · have hieq : i = xs.length := by omega
    subst hieq
    rw [List.getD_append_right _ _ _ _ (le_refl _),
      List.getD_append_right _ _ _ _ (by omega)]
    simp only [Nat.sub_self, hlen]
    simpa using hab

theorem processLoop_xy (hits : List ℤ) (ts es : List ℚ) (s s' : LoopState)
    (h : processLoop hits ts es s = Except.ok s')
    (hlen : s.y_data.length = s.x_data.length) (hxy : XYOk s.x_data s.y_data) :
    XYOk s'.x_data s'.y_data := by
  induction hits generalizing ts es s with
  | nil =>
      simp only [processLoop] at h
      cases h
      exact hxy
  | cons hit hits ih =>
      cases ts with
      | nil => exact absurd h (by simp [processLoop])
      | cons t ts =>
          cases es with
          | nil => exact absurd h (by simp [processLoop])
          | cons e es =>
              simp only [processLoop] at h
              cases hstep : hitStep s hit t e with
              | error err => rw [hstep] at h; exact Except.noConfusion h
              | ok s₁ =>
                  rw [hstep] at h
                  obtain ⟨epp, hadd, hs₁⟩ := hitStep_ok _ _ _ _ _ hstep
                  refine ih ts es s₁ h ?_ ?_ <;> rw [hs₁]
                  · simp [hlen]
                  · refine XYOk_append _ _ hlen hxy _ _ ?_
                    by_cases hpar : decodePlane hit % 2 = 0 <;> simp [hpar]

theorem process_event_isOk (atar : RawAtar) (calo : RawCalo)
    (lk : ℤ → Option (ℚ × ℚ × ℚ)) :
    (process_event atar calo lk).isOk =
      (processLoop atar.pixel_hits atar.pixel_time atar.pixel_edep initState).isOk := by
  unfold process_event
  cases processLoop atar.pixel_hits atar.pixel_time atar.pixel_edep initState <;> rfl

theorem process_event_ok (atar : RawAtar) (calo : RawCalo)
    (lk : ℤ → Option (ℚ × ℚ × ℚ)) (e : Event)
    (h : process_event atar calo lk = Except.ok e) :
    ∃ s, processLoop atar.pixel_hits atar.pixel_time atar.pixel_edep initState =
        Except.ok s ∧
      e.t_data = s.t_data ∧ e.x_data = s.x_data ∧ e.y_data = s.y_data ∧
      e.z_data = s.z_data ∧ e.E_data = s.E_data ∧ e.E_per_plane = s.E_per_plane ∧
      e.gap_times = s.gap_times ∧ e.max_E = pyMax s.E_per_plane ∧
      e.pixel_pdgs = atar.pixel_pdg ∧ e.crystal_ids = calo.crystal ∧
      e.calo_edep = calo.edep ∧ e.r_theta_phis = calo.crystal.map lk := by
  unfold process_event at h
  cases hL : processLoop atar.pixel_hits atar.pixel_time atar.pixel_edep initState with
  | error err => rw [hL] at h; exact Except.noConfusion h
  | ok s =>
      rw [hL] at h
      have he := (Except.ok.inj h).symm
      subst he
      exact ⟨s, rfl, rfl, rfl, rfl, rfl, rfl, rfl, rfl, rfl, rfl, rfl, rfl, rfl⟩

/-! ### Claim theorems -/

/-- C1: for every encoded hit identifier (offset 100000, 100 strips per
plane), decoding yields plane = floor((id - 1 - 100000) / 100),
coordinate = (id - 1) mod 100, and axis x exactly when the plane is even;
the boundary input id = 100100 decodes to plane 0, coordinate 99 (axis x),
not plane 1 coordinate 0. -/
theorem decode_spec_C1 (hitId : ℤ) :
    decodePlane hitId = ⌊((hitId : ℚ) - 1 - 100000) / 100⌋ ∧
    decodeCoord hitId = (hitId - 1) % 100 ∧
    decodeAxis hitId = (if Even (decodePlane hitId) then Axis.x else Axis.y) ∧
    decodePlane 100100 = 0 ∧ decodeCoord 100100 = 99 ∧
    decodeAxis 100100 = Axis.x := by
  refine ⟨?_, rfl, ?_, by with_unfolding_all decide, by with_unfolding_all decide, by with_unfolding_all decide⟩
  · have h := Rat.floor_intCast_div_natCast (hitId - 1 - 100000) 100
    push_cast at h
    rw [decodePlane, Int.fdiv_eq_ediv _ (by norm_num), ← h]
  · by_cases hp : decodePlane hitId % 2 = 0
    · rw [decodeAxis, if_pos hp, if_pos (Int.even_iff.mpr hp)]
    · rw [decodeAxis, if_neg hp, if_neg (fun he => hp (Int.even_iff.mp he))]

/-- C2 counterexample: the hit ID 100000 decodes to plane -1, outside the
valid range [0, 50), yet `process_event` does not fail: it succeeds and
silently adds the hit's 2 MeV to `E_per_plane[49]` through Python
negative indexing. -/
theorem planeRange_C2_counterexample :
    decodePlane 100000 = -1 ∧
    (process_event atarWrap calo0 lookup0).isOk = true ∧
    (process_event atarWrap calo0 lookup0).toOption.map
      (fun e => e.E_per_plane.getD 49 0) = some 2 := by
  exact ⟨by with_unfolding_all decide, by with_unfolding_all decide, by with_unfolding_all decide⟩

/-- C2 amended: with aligned time and energy arrays, `process_event`
surfaces an error if and only if some decoded plane index lies outside
[-50, 50); a decoded plane in [-50, -1] is accepted silently, its energy
written into the slot `plane + 50` (as the counterexample shows for
plane -1 and slot 49). -/
theorem planeRange_C2_amended (atar : RawAtar) (calo : RawCalo)
    (lk : ℤ → Option (ℚ × ℚ × ℚ))
    (hts : atar.pixel_time.length = atar.pixel_hits.length)
    (hes : atar.pixel_edep.length = atar.pixel_hits.length) :
    (process_event atar calo lk).isOk = false ↔
      ∃ hit ∈ atar.pixel_hits,
        decodePlane hit < -50 ∨ 50 ≤ decodePlane hit := by
  rw [process_event_isOk]
  have h := processLoop_isOk_iff atar.pixel_hits atar.pixel_time atar.pixel_edep
    initState hts hes (by simp [initState])
  constructor
  · intro hfalse
    by_contra hno
    push_neg at hno
    have hall : ∀ hit ∈ atar.pixel_hits,
        -50 ≤ decodePlane hit ∧ decodePlane hit < 50 := by
      intro hit hm
      have h2 := hno hit hm
      omega
    have htrue := h.mpr hall
    rw [htrue] at hfalse
    exact Bool.noConfusion hfalse
  · rintro ⟨hit, hm, hbad⟩
    cases hok : (processLoop atar.pixel_hits atar.pixel_time atar.pixel_edep
        initState).isOk with
    | false => rfl
    | true =>
        exfalso
        have := h.mp hok hit hm
        omega

/-- C2 amended, witness: the single hit 90000 (decoded plane -101) makes
`process_event` fail. -/
theorem planeRange_C2_witness :
    atarBadPlane.pixel_time.length = atarBadPlane.pixel_hits.length ∧
    (process_event atarBadPlane calo0 lookup0).isOk = false := by
  refine ⟨by with_unfolding_all decide, ?_⟩
  rw [planeRange_C2_amended atarBadPlane calo0 lookup0 (by with_unfolding_all decide) (by with_unfolding_all decide)]
  exact ⟨90000, by with_unfolding_all decide, by with_unfolding_all decide⟩

/-- C3 counterexample: one hit with an empty pdg array — unequal parallel
raw arrays — yet `process_event` succeeds and returns a record whose
`pixel_pdgs` is empty while `t_data` has one entry. -/
theorem shapeMismatch_C3_counterexample :
    atarNoPdg.pixel_pdg.length ≠ atarNoPdg.pixel_hits.length ∧
    (process_event atarNoPdg calo0 lookup0).isOk = true ∧
    (process_event atarNoPdg calo0 lookup0).toOption.map
      (fun e => (e.t_data.length, e.pixel_pdgs.length)) = some (1, 0) := by
  exact ⟨by with_unfolding_all decide, by with_unfolding_all decide, by with_unfolding_all decide⟩

/-- C3 amended: `process_event` fails (with the loop's IndexError) when
the hit-time or hit-energy array is shorter than the hit-ID array; a
longer time/energy array or a mismatched pdg array is not detected. -/
theorem shapeMismatch_C3_amended (atar : RawAtar) (calo : RawCalo)
    (lk : ℤ → Option (ℚ × ℚ × ℚ))
    (h : atar.pixel_time.length < atar.pixel_hits.length ∨
      atar.pixel_edep.length < atar.pixel_hits.length) :
    (process_event atar calo lk).isOk = false := by
  rw [process_event_isOk]
  exact processLoop_short _ _ _ _ h

/-- C3 amended, witness: two hits but a single timestamp fail. -/
theorem shapeMismatch_C3_witness :
    atarShortTime.pixel_time.length < atarShortTime.pixel_hits.length ∧
    (process_event atarShortTime calo0 lookup0).isOk = false := by
  exact ⟨by with_unfolding_all decide,
    shapeMismatch_C3_amended atarShortTime calo0 lookup0 (Or.inl (by with_unfolding_all decide))⟩

/-- C4: reconstruction appends a delta to `gap_times` exactly when the
current timestamp minus the previous one exceeds 1.0, the first hit
measured against a cursor of 0 (the `gapTimesSpec` recurrence); for the
timestamps [0.2, 0.5, 2.0, 2.1] the result is [1.5]. -/
theorem gapTimes_C4 :
    (∀ (atar : RawAtar) (calo : RawCalo) (lk : ℤ → Option (ℚ × ℚ × ℚ))
        (e : Event), atar.pixel_time.length = atar.pixel_hits.length →
        process_event atar calo lk = Except.ok e →
        e.gap_times = gapTimesSpec 0 atar.pixel_time) ∧
    gapTimesSpec 0 [0.2, 0.5, 2.0, 2.1] = [1.5] := by
  constructor
  · intro atar calo lk e hlen hok
    obtain ⟨s, hL, ht, hx, hy, hz, hE, hepp, hgap, hmax, hpdg, hcry, hedep,
      hrtp⟩ := process_event_ok _ _ _ _ hok
    rw [hgap, processLoop_gap _ _ _ _ _ hlen hL]
    simp [initState]
  · with_unfolding_all decide

/-- C4 witness: the four-hit event with timestamps [0.2, 0.5, 2.0, 2.1]
reconstructs with `gap_times = [1.5]`. -/
theorem gapTimes_C4_witness :
    (process_event atarGap calo0 lookup0).toOption.map Event.gap_times =
      some [1.5] := by
  obtain ⟨e, hE⟩ := exists_ok _
    (show (process_event atarGap calo0 lookup0).isOk = true by with_unfolding_all decide)
  have h := gapTimes_C4.1 atarGap calo0 lookup0 e (by with_unfolding_all decide) hE
  rw [hE]
  simp only [Except.toOption, Option.map_some']
  rw [h]
  with_unfolding_all decide

/-- C5: for every reconstructed event whose hits all decode to plane
indices in the valid range, the sum over the 50 entries of `E_per_plane`
equals the sum over `E_data`. -/
theorem energyConservation_C5 (atar : RawAtar) (calo : RawCalo)
    (lk : ℤ → Option (ℚ × ℚ × ℚ)) (e : Event)
    (hok : process_event atar calo lk = Except.ok e)
    (hvalid : ∀ hit ∈ atar.pixel_hits,
      0 ≤ decodePlane hit ∧ decodePlane hit < 50) :
    e.E_per_plane.length = 50 ∧ e.E_per_plane.sum = e.E_data.sum := by
  obtain ⟨s, hL, ht, hx, hy, hz, hE, hepp, hgap, hmax, hpdg, hcry, hedep,
    hrtp⟩ := process_event_ok _ _ _ _ hok
  obtain ⟨h1, h2, h3, h4, h5, hlen, hsum⟩ := processLoop_ok _ _ _ _ _ hL
  have h0 : initState.E_per_plane.sum = 0 := by simp [initState]
  have h0' : initState.E_data.sum = 0 := by simp [initState]
  have h0l : initState.E_per_plane.length = 50 := by simp [initState]
  constructor
  · rw [hepp, hlen, h0l]
  · rw [hepp, hE]
    rw [h0, h0'] at hsum
    linarith

/-- C5 witness: the four-hit event (all planes 0) conserves energy:
50 slots, and the two sums cancel. -/
theorem energyConservation_C5_witness :
    (process_event atarGap calo0 lookup0).toOption.map
      (fun e => (e.E_per_plane.length, e.E_per_plane.sum - e.E_data.sum)) =
      some (50, 0) := by
  obtain ⟨e, hE⟩ := exists_ok _
    (show (process_event atarGap calo0 lookup0).isOk = true by with_unfolding_all decide)
  obtain ⟨hlen, hsum⟩ := energyConservation_C5 atarGap calo0 lookup0 e hE
    (by with_unfolding_all decide)
  rw [hE]
  simp only [Except.toOption, Option.map_some']
  rw [hlen, hsum]
  simp

/-- C6 counterexample: one hit with two pdg entries reconstructs without
error into a record whose `pixel_pdgs` has 2 entries while the other
series have 1 — the lengths are not all equal. -/
theorem alignment_C6_counterexample :
    (process_event atarTwoPdg calo0 lookup0).isOk = true ∧
    (process_event atarTwoPdg calo0 lookup0).toOption.map
      (fun e => (e.t_data.length, e.pixel_pdgs.length)) = some (1, 2) := by
  exact ⟨by with_unfolding_all decide, by with_unfolding_all decide⟩

/-- C6 amended: for every reconstructed event whose raw pdg array has the
same length as the hit-ID array, the series `t_data`, `x_data`, `y_data`,
`z_data`, `E_data`, `pixel_pdgs` all have equal length (one entry per raw
hit) and at every index exactly one of `x_data[i]`, `y_data[i]` holds a
real value. -/
theorem alignment_C6_amended (atar : RawAtar) (calo : RawCalo)
    (lk : ℤ → Option (ℚ × ℚ × ℚ)) (e : Event)
    (hok : process_event atar calo lk = Except.ok e)
    (hpdg : atar.pixel_pdg.length = atar.pixel_hits.length) :
    e.x_data.length = e.t_data.length ∧
    e.y_data.length = e.t_data.length ∧
    e.z_data.length = e.t_data.length ∧
    e.E_data.length = e.t_data.length ∧
    e.pixel_pdgs.length = e.t_data.length ∧
    ∀ i, i < e.t_data.length →
      ((e.x_data.getD i none).isSome = true ∧ e.y_data.getD i none = none) ∨
      ((e.y_data.getD i none).isSome = true ∧ e.x_data.getD i none = none) := by
  obtain ⟨s, hL, ht, hx, hy, hz, hE, hepp, hgap, hmax, hpdgs, hcry, hedep,
    hrtp⟩ := process_event_ok _ _ _ _ hok
  obtain ⟨h1, h2, h3, h4, h5, hlen, hsum⟩ := processLoop_ok _ _ _ _ _ hL
  simp only [initState, List.length_nil, Nat.zero_add] at h1 h2 h3 h4 h5
  have hxy := processLoop_xy _ _ _ _ _ hL (by simp [initState])
    (by intro i hi; simp [initState] at hi)
  refine ⟨?_, ?_, ?_, ?_, ?_, ?_⟩
  · rw [hx, ht, h1, h2]
  · rw [hy, ht, h1, h3]
  · rw [hz, ht, h1, h4]
  · rw [hE, ht, h1, h5]
  · rw [hpdgs, ht, h1, hpdg]
  · intro i hi
    rw [hx, hy]
    refine hxy i ?_
    rw [h2]
    rw [ht, h1] at hi
    exact hi

set_option maxRecDepth 8000 in
/-- C6 amended, witness: the four-hit event with four pdgs reconstructs
into `evGap`, whose series all have length 4 and whose x/y entries at
index 0 are exclusive. -/
theorem alignment_C6_witness :
    atarGap.pixel_pdg.length = atarGap.pixel_hits.length ∧
    evGap.x_data.length = evGap.t_data.length ∧
    evGap.y_data.length = evGap.t_data.length ∧
    evGap.z_data.length = evGap.t_data.length ∧
    evGap.E_data.length = evGap.t_data.length ∧
    evGap.pixel_pdgs.length = evGap.t_data.length ∧
    (((evGap.x_data.getD 0 none).isSome = true ∧
        evGap.y_data.getD 0 none = none) ∨
      ((evGap.y_data.getD 0 none).isSome = true ∧
        evGap.x_data.getD 0 none = none)) := by
  have hE : process_event atarGap calo0 lookup0 = Except.ok evGap := by
    with_unfolding_all decide
  have h := alignment_C6_amended atarGap calo0 lookup0 evGap hE (by decide)
  exact ⟨by decide, h.1, h.2.1, h.2.2.1, h.2.2.2.1, h.2.2.2.2.1,
    h.2.2.2.2.2 0 (by decide)⟩

/-- C7: for every reconstructed event, each crystal ID is resolved through
the geometry lookup at exactly the corresponding index of `r_theta_phis`
(an absent lookup entry gives an absent entry, without shifting), the two
lists have equal length, and no lookup outcome can fail the event. -/
theorem missingLookup_C7 (atar : RawAtar) (calo : RawCalo)
    (lk : ℤ → Option (ℚ × ℚ × ℚ)) (e : Event)
    (hok : process_event atar calo lk = Except.ok e) :
    e.crystal_ids = calo.crystal ∧
    e.r_theta_phis.length = e.crystal_ids.length ∧
    (∀ i, i < e.crystal_ids.length →
      e.r_theta_phis.getD i none = lk (e.crystal_ids.getD i 0)) ∧
    ∀ lk', (process_event atar calo lk').isOk = true := by
  obtain ⟨s, hL, ht, hx, hy, hz, hE, hepp, hgap, hmax, hpdgs, hcry, hedep,
    hrtp⟩ := process_event_ok _ _ _ _ hok
  refine ⟨hcry, ?_, ?_, ?_⟩
  · rw [hrtp, hcry, List.length_map]
  · intro i hi
    rw [hcry] at hi
    rw [hrtp, hcry]
    rw [List.getD_eq_getElem _ _ (by simpa using hi),
      List.getD_eq_getElem _ _ hi, List.getElem_map]
  · intro lk'
    rw [process_event_isOk, ← process_event_isOk atar calo lk, hok]
    rfl

/-- C7 witness: with two crystals of which only the first resolves,
`r_theta_phis` has two entries and the second is absent. -/
theorem missingLookup_C7_witness :
    (process_event atarGap caloTwo lookupOne).toOption.map
      (fun e => (e.r_theta_phis.length, e.r_theta_phis.getD 1 none)) =
      some (2, none) := by
  obtain ⟨e, hE⟩ := exists_ok _
    (show (process_event atarGap caloTwo lookupOne).isOk = true by
      with_unfolding_all decide)
  obtain ⟨hcry, hlen, hidx, _⟩ := missingLookup_C7 atarGap caloTwo lookupOne e hE
  have h1 := hidx 1 (by rw [hcry]; decide)
  rw [hE]
  simp only [Except.toOption, Option.map_some']
  rw [hlen, hcry, h1, hcry]
  with_unfolding_all decide

/-- C8: the spec requires the calorimeter panel to tolerate and skip
absent `r_theta_phis` entries, but the coordinate extraction of
`plot_event` subscripts the absent entry: on an event with two
calorimeter records of which the second is unresolved, it raises
`TypeError` instead of skipping. -/
theorem caloPanel_C8_bug :
    (process_event atarGap caloTwo lookupOne).toOption.map Event.crystal_ids =
      some [1, 2] ∧
    (process_event atarGap caloTwo lookupOne).toOption.map Event.r_theta_phis =
      some [some (1, 2, 3), none] ∧
    (process_event atarGap caloTwo lookupOne).toOption.map caloPanelCoords =
      some (Except.error PyError.typeError) := by
  exact ⟨by with_unfolding_all decide, by with_unfolding_all decide,
    by with_unfolding_all decide⟩

/-- C9: `select_events` returns the indices of the first at-most-`count`
rows satisfying the criterion's predicate, in the table's natural row
order, returning fewer when fewer matches exist (length is the minimum)
and never failing; on the five-row table with matches at rows 0, 2, 4 and
count 2 it returns [0, 2]. -/
theorem selector_C9 :
    (∀ (tree : List TreeRow) (c : ℤ) (n : ℕ),
        select_events tree c n =
          (specMatching tree (criterionOfCode c)).take n ∧
        (select_events tree c n).length =
          min n (specMatching tree (criterionOfCode c)).length) ∧
    select_events tableDAR 1 2 = [0, 2] := by
  constructor
  · intro tree c n
    have hcut : cutOf c = criterionPred (criterionOfCode c) := by
      funext row
      by_cases h0 : c = 0
      · simp [cutOf, criterionOfCode, h0, criterionPred]
      · by_cases h1 : c = 1 <;>
          simp [cutOf, criterionOfCode, h0, h1, criterionPred]
    constructor
    · rw [select_events, drawEntries, specMatching, hcut]
    · rw [select_events, List.length_take, drawEntries, specMatching, hcut]
  · with_unfolding_all decide

theorem legendPass_cons (pid p : ℤ) (acc : List ℤ) (ps : List ℤ) :
    legendPass pid acc (p :: ps) =
      legendPass pid
        (if p = pid then acc
         else if p ∉ particle_IDs then addFirst acc p else acc) ps := rfl

theorem legendPass_eq (pid : ℤ) (hpid : pid ∈ particle_IDs) (pdgs : List ℤ)
    (acc : List ℤ) :
    legendPass pid acc pdgs = (unknownCodes pdgs).foldl addFirst acc := by
  induction pdgs generalizing acc with
  | nil => rfl
  | cons p ps ih =>
      rw [legendPass_cons]
      by_cases hp : p ∈ particle_IDs
      · have hu : unknownCodes (p :: ps) = unknownCodes ps := by
          simp [unknownCodes, hp]
        rw [hu]
        by_cases hpe : p = pid
        · rw [if_pos hpe]; exact ih acc
        · rw [if_neg hpe, if_neg (not_not_intro hp)]; exact ih acc
      · have hu : unknownCodes (p :: ps) = p :: unknownCodes ps := by
          simp [unknownCodes, hp]
        have hpe : p ≠ pid := fun he => hp (he ▸ hpid)
        rw [hu, List.foldl_cons, if_neg hpe, if_pos hp]
        exact ih (addFirst acc p)

theorem mem_foldl_addFirst (l : List ℤ) (p : ℤ) :
    ∀ acc, (p ∈ acc ∨ p ∈ l) → p ∈ l.foldl addFirst acc := by
  induction l with
  | nil =>
      intro acc h
      rcases h with h | h
      · exact h
      · simp at h
  | cons q qs ih =>
      intro acc h
      rw [List.foldl_cons]
      apply ih
      rcases h with h | h
      · left
        unfold addFirst
        split_ifs with hq
        · exact h
        · exact List.mem_append_left _ h
      · rcases List.mem_cons.mp h with h | h
        · subst h
          left
          unfold addFirst
          split_ifs with hq
          · exact hq
          · exact List.mem_append_right _ (by simp)
        · right; exact h

theorem foldl_addFirst_fixed (l : List ℤ) :
    ∀ acc, (∀ p ∈ l, p ∈ acc) → l.foldl addFirst acc = acc := by
  induction l with
  | nil => intro acc _; rfl
  | cons q qs ih =>
      intro acc h
      rw [List.foldl_cons]
      have hq : q ∈ acc := h q (List.mem_cons_self q qs)
      rw [show addFirst acc q = acc from by unfold addFirst; exact if_pos hq]
      exact ih acc (fun p hp => h p (List.mem_cons_of_mem q hp))

theorem nodup_foldl_addFirst (l : List ℤ) :
    ∀ acc : List ℤ, acc.Nodup → (l.foldl addFirst acc).Nodup := by
  induction l with
  | nil => intro acc h; exact h
  | cons q qs ih =>
      intro acc h
      rw [List.foldl_cons]
      apply ih
      unfold addFirst
      split_ifs with hq
      · exact h
      · simp [List.nodup_append, h, List.disjoint_singleton, hq]

theorem other_IDs_eq (pdgs : List ℤ) :
    other_IDs pdgs = firstOccurrences (unknownCodes pdgs) := by
  have hfix : ∀ pid ∈ particle_IDs,
      legendPass pid (firstOccurrences (unknownCodes pdgs)) pdgs =
        firstOccurrences (unknownCodes pdgs) := by
    intro pid hpid
    rw [legendPass_eq pid hpid]
    exact foldl_addFirst_fixed _ _
      (fun p hp => mem_foldl_addFirst _ p [] (Or.inr hp))
  show List.foldl (fun acc pid => legendPass pid acc pdgs) [] particle_IDs = _
  simp only [particle_IDs, List.foldl_cons, List.foldl_nil]
  rw [legendPass_eq 211 (by decide) pdgs []]
  rw [show (unknownCodes pdgs).foldl addFirst [] =
    firstOccurrences (unknownCodes pdgs) from rfl]
  rw [hfix (-11) (by decide), hfix 11 (by decide), hfix (-13) (by decide),
    hfix 13 (by decide)]

theorem colorAssign_ok (ids : List ℤ) :
    ∀ cs : List String, ids.length ≤ cs.length →
      colorAssign ids cs = Except.ok (ids.zip cs) := by
  induction ids with
  | nil => intro cs _; rfl
  | cons i is ih =>
      intro cs h
      cases cs with
      | nil => simp at h
      | cons c cs =>
          simp only [colorAssign]
          rw [ih cs (by simpa using h)]
          rfl

/-- C10: in every call with at most six distinct particle-type codes
outside the five known ones, `other_IDs` contains each distinct unknown
code exactly once, in order of first appearance in the stream, and the
second plot loop pairs each with exactly one secondary-palette color and
one label. -/
theorem otherIDs_C10 (pdgs : List ℤ)
    (h : (firstOccurrences (unknownCodes pdgs)).length ≤ 6) :
    other_IDs pdgs = firstOccurrences (unknownCodes pdgs) ∧
    (other_IDs pdgs).Nodup ∧
    otherScatterCalls pdgs =
      Except.ok ((other_IDs pdgs).zip other_colors) := by
  have heq := other_IDs_eq pdgs
  refine ⟨heq, ?_, ?_⟩
  · rw [heq]
    exact nodup_foldl_addFirst _ _ List.nodup_nil
  · rw [otherScatterCalls]
    refine colorAssign_ok _ _ ?_
    rw [heq, show other_colors.length = 6 from rfl]
    exact h

/-- C10 witness: the stream [211, 7, 8, 7, 13, 9] has three distinct
unknown codes; each is collected once, in first-appearance order, and
assigned one palette color. -/
theorem otherIDs_C10_witness :
    (firstOccurrences (unknownCodes [211, 7, 8, 7, 13, 9])).length ≤ 6 ∧
    other_IDs [211, 7, 8, 7, 13, 9] = [7, 8, 9] ∧
    otherScatterCalls [211, 7, 8, 7, 13, 9] =
      Except.ok [(7, "k"), (8, "gray"), (9, "cyan")] := by
  obtain ⟨h1, h2, h3⟩ := otherIDs_C10 [211, 7, 8, 7, 13, 9] (by decide)
  refine ⟨by decide, ?_, ?_⟩
  · rw [h1]; decide
  · rw [h3, h1]; decide
